import Mathlib

/-!
Verification of the palette catalog subsystem of `color-forge`
(`src/lib/palette-storage.ts` and `src/hooks/usePalettes.ts`).

The repository persists a single JSON array of palette records under one
localStorage key.  We embed the catalog state as a `List SavedPalette`
(the parsed content of that key); the serialization boundary is modelled
by a `Json` value type: `JSON.parse` of the import text is an
`Except String Json` (an `error` carries the engine message of the thrown
`SyntaxError`), and `JSON.stringify` of the stored list is the `Json`
encoding produced by `paletteToJson`.

JavaScript dynamics that the source relies on are modelled explicitly:
field access on non-objects yields `undefined` (here `Option.none`),
truthiness of values, the `x || d` defaulting idiom, and method calls on
non-strings throwing `TypeError` (here `Except.error`).

ID generation (`generateId`, wall clock + `Math.random`) is modelled as an
environment-supplied stream `gen : Nat -> String` consumed at a counter,
one value per `generateId()` call; substrate write failure
(`localStorage.setItem` throwing, e.g. quota exceeded) is a boolean
oracle `wfail` per write.
-/

namespace ColorForge

/-- JSON values as produced by `JSON.parse` (numbers restricted to the
integers the claims need). -/
inductive Json where
  | null
  | bool (b : Bool)
  | num (n : Int)
  | str (s : String)
  | arr (elems : List Json)
  | obj (fields : List (String × Json))

/-- Last-occurrence-wins association lookup: `JSON.parse` keeps the last
duplicate key of an object literal. -/
def lookupLast (fields : List (String × Json)) (k : String) : Option Json :=
  match fields with
  | [] => none
  | (k2, v) :: rest =>
    match lookupLast rest k with
    | some r => some r
    | none => if k2 = k then some v else none

/-- JavaScript property access `r[k]`: a real lookup on objects,
`undefined` (`none`) on every other non-null value.  (Access on `null`
throws and is handled separately by each caller.) -/
def Json.get? (r : Json) (k : String) : Option Json :=
  match r with
  | .obj fields => lookupLast fields k
  | _ => none

/-- JavaScript truthiness of a parsed JSON value. -/
def Json.truthy : Json → Bool
  | .null => false
  | .bool b => b
  | .num n => n != 0
  | .str s => s != ""
  | .arr _ => true
  | .obj _ => true

/-- Truthiness of a possibly-`undefined` value. -/
def jsTruthy : Option Json → Bool
  | none => false
  | some v => v.truthy

/-- `Array.isArray` on a possibly-`undefined` value. -/
def jsIsArray : Option Json → Bool
  | some (.arr _) => true
  | _ => false

/-- The JavaScript defaulting idiom `v || d` applied to a possibly-absent
object field: the field value when present and truthy, else `d`. -/
def jsOr (v : Option Json) (d : Json) : Json :=
  match v with
  | some x => if x.truthy then x else d
  | none => d

mutual
/-- JavaScript string coercion `String(v)` of a parsed JSON value, as used
by template interpolation. -/
def Json.jsDisplay : Json → String
  | .null => "null"
  | .bool b => cond b "true" "false"
  | .num n => toString n
  | .str s => s
  | .arr es => Json.jsDisplayItems es
  | .obj _ => "[object Object]"

/-- One element of `Array.prototype.toString` (join with comma, `null`
elements shown as empty). -/
def Json.jsDisplayItem : Json → String
  | .null => ""
  | .bool b => cond b "true" "false"
  | .num n => toString n
  | .str s => s
  | .arr es => Json.jsDisplayItems es
  | .obj _ => "[object Object]"

/-- `Array.prototype.join` with comma. -/
def Json.jsDisplayItems : List Json → String
  | [] => ""
  | [e] => Json.jsDisplayItem e
  | e :: es => Json.jsDisplayItem e ++ "," ++ Json.jsDisplayItems es
end

/-- A stored palette record (`SavedPalette` of `palette-storage.ts`).
`id` is always a string because every creation path assigns
`generateId()`; the remaining fields hold whatever JSON value the import
path stored, so they are `Json`. -/
structure SavedPalette where
  id : String
  name : Json
  description : Json
  colors : Json
  colorTheory : Json
  useCases : Json
  category : Json
  createdAt : Json
  updatedAt : Json

/-- A creation draft: `Omit<SavedPalette, "id" | "createdAt" | "updatedAt">`,
the argument of `savePalette`. -/
structure PaletteDraft where
  name : Json
  description : Json
  colors : Json
  colorTheory : Json
  useCases : Json
  category : Json

/-- Result of `savePalette`: the outcome (the new id, or the raised
`Error("Failed to save palette")`), the stored collection afterwards, and
the advanced id-generation counter. -/
structure SaveOut where
  result : Except String String
  stored : List SavedPalette
  nextCtr : Nat

/-- `savePalette` (`palette-storage.ts:41-62`): builds the record with a
fresh id and both timestamps set to now, appends it to the stored
collection and writes the whole collection back; a substrate write
failure is caught and rethrown as `Error("Failed to save palette")`,
leaving the stored collection unchanged. -/
def savePalette (gen : Nat → String) (ctr : Nat) (now : String)
    (draft : PaletteDraft) (wfail : Bool) (stored : List SavedPalette) : SaveOut :=
  let id := gen ctr
  let savedPalette : SavedPalette :=
    { id := id
      name := draft.name
      description := draft.description
      colors := draft.colors
      colorTheory := draft.colorTheory
      useCases := draft.useCases
      category := draft.category
      createdAt := .str now
      updatedAt := .str now }
  let updatedPalettes := stored ++ [savedPalette]
  if wfail then
    { result := .error "Failed to save palette", stored := stored, nextCtr := ctr + 1 }
  else
    { result := .ok id, stored := updatedPalettes, nextCtr := ctr + 1 }

/-- The argument of `updatePalette`:
`Partial<Omit<SavedPalette, "id" | "createdAt">>` — each field either
absent or an explicit value. -/
structure PaletteUpdate where
  name : Option Json := none
  description : Option Json := none
  colors : Option Json := none
  colorTheory : Option Json := none
  useCases : Option Json := none
  category : Option Json := none
  updatedAt : Option Json := none

/-- The merge `{...palettes[index], ...updates, updatedAt: now}` of
`updatePalette`: present update fields override, `id`/`createdAt` are not
updatable, and the trailing `updatedAt: now` overrides any update value. -/
def applyUpdate (p : SavedPalette) (u : PaletteUpdate) (now : String) : SavedPalette :=
  { id := p.id
    name := u.name.getD p.name
    description := u.description.getD p.description
    colors := u.colors.getD p.colors
    colorTheory := u.colorTheory.getD p.colorTheory
    useCases := u.useCases.getD p.useCases
    category := u.category.getD p.category
    createdAt := p.createdAt
    updatedAt := .str now }

/-- `updatePalette` (`palette-storage.ts:67-88`): `findIndex` by id;
`-1` returns `false`; otherwise the record is merged and the collection
written back; a write failure is caught (logged) and the call returns
`false`.  The `Except` layer is the raising channel: this function never
raises, every branch is `.ok`. -/
def updatePalette (id : String) (updates : PaletteUpdate) (now : String)
    (wfail : Bool) (stored : List SavedPalette) :
    Except String (Bool × List SavedPalette) :=
  match stored.findIdx? (fun p => p.id == id) with
  | none => .ok (false, stored)
  | some index =>
    match stored.get? index with
    | none => .ok (false, stored)
    | some old =>
      let newList := stored.set index (applyUpdate old updates now)
      if wfail then .ok (false, stored) else .ok (true, newList)

/-- `deletePalette` (`palette-storage.ts:93-106`): filters the id out;
when nothing was removed returns `false`; a write failure is caught and
returns `false`.  Never raises. -/
def deletePalette (id : String) (wfail : Bool) (stored : List SavedPalette) :
    Except String (Bool × List SavedPalette) :=
  if (stored.filter (fun p => p.id != id)).length == stored.length then
    .ok (false, stored)
  else if wfail then .ok (false, stored)
  else .ok (true, stored.filter (fun p => p.id != id))

/-- `getPaletteById` (`palette-storage.ts:111-114`): `find || null`. -/
def getPaletteById (id : String) (stored : List SavedPalette) : Option SavedPalette :=
  stored.find? (fun p => p.id == id)

/-- `getPalettesByCategory` (`palette-storage.ts:137-140`): strict
equality of the `category` field against `Json.str` of the enum value. -/
def getPalettesByCategory (category : String) (stored : List SavedPalette) :
    List SavedPalette :=
  stored.filter (fun p =>
    match p.category with
    | .str c => c == category
    | _ => false)

/-- JavaScript `toLowerCase`, modelled character-wise (ASCII case
mapping) so that it evaluates inside the kernel. -/
def strToLower (s : String) : String := String.mk (s.toList.map Char.toLower)

/-- JavaScript `hay.includes(needle)` substring test. -/
def strIncludes (hay needle : String) : Bool :=
  decide (needle.toList <:+: hay.toList)

/-- `v.toLowerCase()` on a JSON value: only strings have the method, any
other receiver throws `TypeError`. -/
def Json.jsToLower : Json → Except String String
  | .str s => .ok (strToLower s)
  | _ => .error "toLowerCase is not a function"

/-- `c[k].toLowerCase()` where `c` is an arbitrary JSON value: access on
`null` throws, an absent field gives `undefined` whose method call
throws, a non-string field value throws. -/
def jsFieldToLower (c : Json) (k : String) : Except String String :=
  match c with
  | .null => .error "Cannot read properties of null"
  | _ =>
    match c.get? k with
    | some (.str s) => .ok (strToLower s)
    | some _ => .error "toLowerCase is not a function"
    | none => .error "Cannot read properties of undefined"

/-- The `searchPalettes` per-color predicate
`color.name.toLowerCase().includes(q) || color.hex.toLowerCase().includes(q)`
with JavaScript short-circuit order. -/
def colorMatches (lowercaseQuery : String) (c : Json) : Except String Bool :=
  match jsFieldToLower c "name" with
  | .error e => .error e
  | .ok n =>
    if strIncludes n lowercaseQuery then .ok true
    else
      match jsFieldToLower c "hex" with
      | .error e => .error e
      | .ok h => .ok (strIncludes h lowercaseQuery)

/-- `Array.prototype.some` over the color list, short-circuiting and
propagating a thrown `TypeError`. -/
def colorsSome (lowercaseQuery : String) : List Json → Except String Bool
  | [] => .ok false
  | c :: cs =>
    match colorMatches lowercaseQuery c with
    | .error e => .error e
    | .ok b => if b then .ok true else colorsSome lowercaseQuery cs

/-- The `searchPalettes` per-palette predicate
(`palette-storage.ts:123-131`), with the `||` short-circuit order of the
source: name, then description, then colorTheory, then the colors. -/
def paletteMatches (lowercaseQuery : String) (p : SavedPalette) : Except String Bool :=
  match p.name.jsToLower with
  | .error e => .error e
  | .ok n =>
    if strIncludes n lowercaseQuery then .ok true
    else
      match p.description.jsToLower with
      | .error e => .error e
      | .ok d =>
        if strIncludes d lowercaseQuery then .ok true
        else
          match p.colorTheory.jsToLower with
          | .error e => .error e
          | .ok t =>
            if strIncludes t lowercaseQuery then .ok true
            else
              match p.colors with
              | .null => .error "Cannot read properties of null"
              | .arr cs => colorsSome lowercaseQuery cs
              | _ => .error "some is not a function"

/-- `Array.prototype.filter` with a predicate that can throw: elements
are tested in order and a throw aborts the whole call. -/
def filterE (f : SavedPalette → Except String Bool) :
    List SavedPalette → Except String (List SavedPalette)
  | [] => .ok []
  | p :: ps =>
    match f p with
    | .error e => .error e
    | .ok b =>
      match filterE f ps with
      | .error e => .error e
      | .ok rest => .ok (if b then p :: rest else rest)

/-- `searchPalettes` (`palette-storage.ts:119-132`): lowercases the query
once and keeps the palettes whose name, description, colorTheory, or some
color name/hex contains it. -/
def searchPalettes (query : String) (stored : List SavedPalette) :
    Except String (List SavedPalette) :=
  filterE (paletteMatches (strToLower query)) stored

/-- The JSON object `JSON.stringify` produces for one stored record. -/
def paletteToJson (p : SavedPalette) : Json :=
  .obj [("id", .str p.id), ("name", p.name), ("description", p.description),
        ("colors", p.colors), ("colorTheory", p.colorTheory),
        ("useCases", p.useCases), ("category", p.category),
        ("createdAt", p.createdAt), ("updatedAt", p.updatedAt)]

/-- `exportPalettes` (`palette-storage.ts:145-148`), modelled at the
parsed level: the pretty-printed text it returns parses back to exactly
this JSON array. -/
def exportPalettes (stored : List SavedPalette) : Json :=
  .arr (stored.map paletteToJson)

/-- Outcome of processing one record of the import array: an accepted
record or the error message pushed for it. -/
inductive RecOutcome where
  | ok (p : SavedPalette)
  | err (msg : String)

/-- `true` exactly on accepted records. -/
def RecOutcome.isAccepted : RecOutcome → Bool
  | .ok _ => true
  | .err _ => false

/-- The `palette.name || "unnamed"` interpolation of the invalid-palette
error message. -/
def jsOrUnnamed : Option Json → String
  | some v => if v.truthy then v.jsDisplay else "unnamed"
  | none => "unnamed"

/-- The body of the `importPalettes` loop for one record
(`palette-storage.ts:165-194`): a `null` array element makes the
`palette.name` access throw (caught by the per-record handler); then the
validation `!palette.name || !palette.colors || !Array.isArray(palette.colors)`
rejects with `Invalid palette: ...`; an accepted record is rebuilt with
the fresh id, the `|| default` fields, `createdAt` defaulted to now and
`updatedAt` set to now. -/
def processRecord (newId : String) (now : String) (r : Json) : RecOutcome :=
  match r with
  | .null => .err "Error importing palette: Cannot read properties of null"
  | _ =>
    let name := r.get? "name"
    let colors := r.get? "colors"
    if !jsTruthy name || !jsTruthy colors || !jsIsArray colors then
      .err ("Invalid palette: " ++ jsOrUnnamed name)
    else
      .ok { id := newId
            name := (name.getD .null)
            description := jsOr (r.get? "description") (.str "")
            colors := (colors.getD .null)
            colorTheory := jsOr (r.get? "colorTheory") (.str "")
            useCases := jsOr (r.get? "useCases") (.arr [])
            category := jsOr (r.get? "category") (.str "custom")
            createdAt := jsOr (r.get? "createdAt") (.str now)
            updatedAt := .str now }

/-- Accumulated state of the import loop: the accepted records in order,
the error messages in order, `successCount`, and the id counter after the
loop (`generateId` is called once per accepted record). -/
structure ImportLoopOut where
  palettes : List SavedPalette
  errors : List String
  successCount : Nat
  nextCtr : Nat

/-- The `for (const palette of importedPalettes)` loop of
`importPalettes`. -/
def runImport (gen : Nat → String) (now : String) :
    List Json → Nat → ImportLoopOut
  | [], ctr => { palettes := [], errors := [], successCount := 0, nextCtr := ctr }
  | r :: rs, ctr =>
    match processRecord (gen ctr) now r with
    | .err m =>
      let o := runImport gen now rs ctr
      { palettes := o.palettes, errors := m :: o.errors,
        successCount := o.successCount, nextCtr := o.nextCtr }
    | .ok p =>
      let o := runImport gen now rs (ctr + 1)
      { palettes := p :: o.palettes, errors := o.errors,
        successCount := o.successCount + 1, nextCtr := o.nextCtr }

/-- The `{success, errors}` value `importPalettes` returns. -/
structure ImportResult where
  success : Nat
  errors : List String

/-- Full outcome of `importPalettes`: the returned value, the stored
collection afterwards, the advanced id counter, and the sequence of
whole-collection payloads passed to `localStorage.setItem` during the
call. -/
structure ImportOut where
  result : ImportResult
  stored : List SavedPalette
  nextCtr : Nat
  writes : List (List SavedPalette)

/-- `importPalettes` (`palette-storage.ts:153-207`).  `parsed` is the
outcome of `JSON.parse(jsonData)`; a parse throw is caught by the outer
handler (`Failed to parse JSON: <message>`), as is the
`Invalid format: expected array of palettes` error thrown for a non-array
parse.  Otherwise the loop runs and the mutated collection is written
once at the end, only when `successCount > 0`. -/
def importPalettes (gen : Nat → String) (ctr : Nat) (now : String)
    (parsed : Except String Json) (stored : List SavedPalette) : ImportOut :=
  match parsed with
  | .error m =>
    { result := { success := 0, errors := ["Failed to parse JSON: " ++ m] },
      stored := stored, nextCtr := ctr, writes := [] }
  | .ok (.arr importedPalettes) =>
    if 0 < (runImport gen now importedPalettes ctr).successCount then
      { result := { success := (runImport gen now importedPalettes ctr).successCount,
                    errors := (runImport gen now importedPalettes ctr).errors },
        stored := stored ++ (runImport gen now importedPalettes ctr).palettes,
        nextCtr := (runImport gen now importedPalettes ctr).nextCtr,
        writes := [stored ++ (runImport gen now importedPalettes ctr).palettes] }
    else
      { result := { success := (runImport gen now importedPalettes ctr).successCount,
                    errors := (runImport gen now importedPalettes ctr).errors },
        stored := stored, nextCtr := (runImport gen now importedPalettes ctr).nextCtr,
        writes := [] }
  | .ok _ =>
    { result := { success := 0,
                  errors := ["Failed to parse JSON: Invalid format: expected array of palettes"] },
      stored := stored, nextCtr := ctr, writes := [] }

/-- `clearAllPalettes` (`palette-storage.ts:212-218`): the substrate key
is removed, so the next read sees an empty collection. -/
def clearAllPalettes : List SavedPalette := []

/-- The operations of claim C2: any sequence of `savePalette` and
`importPalettes` calls, each with its own clock value and (for create)
write-failure oracle. -/
inductive CatalogOp where
  | create (draft : PaletteDraft) (now : String) (wfail : Bool)
  | importAll (parsed : Except String Json) (now : String)

/-- One catalog operation applied to the state
(stored collection, id-generation counter). -/
def applyOp (gen : Nat → String) (st : List SavedPalette × Nat)
    (op : CatalogOp) : List SavedPalette × Nat :=
  match op with
  | .create draft now wfail =>
    ((savePalette gen st.2 now draft wfail st.1).stored,
     (savePalette gen st.2 now draft wfail st.1).nextCtr)
  | .importAll parsed now =>
    ((importPalettes gen st.2 now parsed st.1).stored,
     (importPalettes gen st.2 now parsed st.1).nextCtr)

/-- A sequence of catalog operations run from the empty catalog. -/
def runOps (gen : Nat → String) (ops : List CatalogOp) :
    List SavedPalette × Nat :=
  ops.foldl (applyOp gen) ([], 0)

/-! ## The view-model (`usePalettes.ts`) -/

/-- The hook state the claims touch: the in-memory mirror and the single
last-error-message slot. -/
structure VMState where
  palettes : List SavedPalette
  error : Option String

/-- Result of a view-model update/delete call: the boolean the hook
returns, the substrate-backed collection afterwards, and the new hook
state. -/
structure VMBoolOut where
  success : Bool
  stored : List SavedPalette
  vm : VMState

/-- `updateExistingPalette` (`usePalettes.ts:57-76`): calls the
repository; on `true` it patches the mirror and clears the error slot; on
`false` it returns without touching either; a raised failure would set
the slot and return `false`. -/
def updateExistingPalette (id : String) (updates : PaletteUpdate) (now : String)
    (wfail : Bool) (stored : List SavedPalette) (vm : VMState) : VMBoolOut :=
  match updatePalette id updates now wfail stored with
  | .ok (success, stored2) =>
    if success then
      { success := true, stored := stored2,
        vm := { palettes := vm.palettes.map (fun palette =>
                  if palette.id == id then applyUpdate palette updates now else palette),
                error := none } }
    else
      { success := false, stored := stored2, vm := vm }
  | .error m =>
    { success := false, stored := stored, vm := { vm with error := some m } }

/-- `removePalette` (`usePalettes.ts:79-92`): calls the repository; on
`true` it filters the mirror and clears the error slot; on `false` it
returns without touching either; a raised failure would set the slot. -/
def removePalette (id : String) (wfail : Bool) (stored : List SavedPalette)
    (vm : VMState) : VMBoolOut :=
  match deletePalette id wfail stored with
  | .ok (success, stored2) =>
    if success then
      { success := true, stored := stored2,
        vm := { palettes := vm.palettes.filter (fun palette => palette.id != id),
                error := none } }
    else
      { success := false, stored := stored2, vm := vm }
  | .error m =>
    { success := false, stored := stored, vm := { vm with error := some m } }

/-- Result of the view-model create call. -/
structure VMSaveOut where
  result : Except String String
  stored : List SavedPalette
  nextCtr : Nat
  vm : VMState

/-- `saveNewPalette` (`usePalettes.ts:40-54`): on success appends the
re-read record to the mirror and clears the error slot; on a raised
failure it sets the slot to the error message and rethrows. -/
def saveNewPalette (gen : Nat → String) (ctr : Nat) (now : String)
    (draft : PaletteDraft) (wfail : Bool) (stored : List SavedPalette)
    (vm : VMState) : VMSaveOut :=
  let o := savePalette gen ctr now draft wfail stored
  match o.result with
  | .ok id =>
    match getPaletteById id o.stored with
    | some p =>
      { result := .ok id, stored := o.stored, nextCtr := o.nextCtr,
        vm := { palettes := vm.palettes ++ [p], error := none } }
    | none =>
      { result := .ok id, stored := o.stored, nextCtr := o.nextCtr,
        vm := { vm with error := none } }
  | .error m =>
    { result := .error m, stored := o.stored, nextCtr := o.nextCtr,
      vm := { vm with error := some m } }

/-! ## Specification-side predicates

These definitions formalize the vocabulary of the claims (validity of a
palette per the data model of spec §3, acceptance of an import record,
the search membership condition); each theorem below compares the source
embedding against them. -/

/-- A record of the import array is accepted exactly by the source's
validation check: a truthy `name` and a `colors` field (truthy and an
array; every array is truthy, so this is "name truthy and colors an
array"). -/
def recAccepted (r : Json) : Bool :=
  jsTruthy (r.get? "name") && jsIsArray (r.get? "colors")

/-- A valid palette per spec §3: `name` a non-empty string, `description`
and `colorTheory` strings, `colors` and `useCases` arrays, `category` one
of the six non-empty enum strings, `createdAt` a non-empty ISO string. -/
def ValidPalette (p : SavedPalette) : Prop :=
  (∃ n, n ≠ "" ∧ p.name = .str n) ∧
  (∃ d, p.description = .str d) ∧
  (∃ cs, p.colors = .arr cs) ∧
  (∃ t, p.colorTheory = .str t) ∧
  (∃ us, p.useCases = .arr us) ∧
  (∃ c, c ≠ "" ∧ p.category = .str c) ∧
  (∃ ca, ca ≠ "" ∧ p.createdAt = .str ca)

/-- Claim C1's record agreement: the imported record agrees with the
original on every field except `id` and `updatedAt`, the latter being
the time of the import. -/
def RoundtripAgrees (now : String) (p q : SavedPalette) : Prop :=
  q.name = p.name ∧ q.description = p.description ∧ q.colors = p.colors ∧
  q.colorTheory = p.colorTheory ∧ q.useCases = p.useCases ∧
  q.category = p.category ∧ q.createdAt = p.createdAt ∧ q.updatedAt = .str now

/-- Claim C3's description of a stored accepted record `q` built from
input record `r`: fresh-id and `updatedAt` handling aside, `name` is
taken verbatim, each optional field defaults when absent, and `createdAt`
is preserved when present and truthy, else set to the import time. -/
def ImportedRecordSpec (now : String) (r : Json) (q : SavedPalette) : Prop :=
  (∀ v, r.get? "name" = some v → q.name = v) ∧
  q.updatedAt = .str now ∧
  (r.get? "description" = none → q.description = .str "") ∧
  (r.get? "colorTheory" = none → q.colorTheory = .str "") ∧
  (r.get? "useCases" = none → q.useCases = .arr []) ∧
  (r.get? "category" = none → q.category = .str "custom") ∧
  (∀ v, r.get? "createdAt" = some v → v.truthy = true → q.createdAt = v) ∧
  (r.get? "createdAt" = none → q.createdAt = .str now) ∧
  (∀ v, r.get? "createdAt" = some v → v.truthy = false → q.createdAt = .str now)

/-- `needle` occurs case-insensitively as a substring of `hay`. -/
def OccursCI (needle hay : String) : Prop :=
  (strToLower needle).toList <:+: (strToLower hay).toList

/-- Claim C6's membership condition: the query occurs case-insensitively
in the palette's name, description, colorTheory, or in some color's name
or hex. -/
def MatchesQuery (query : String) (p : SavedPalette) : Prop :=
  (∃ n, p.name = .str n ∧ OccursCI query n) ∨
  (∃ d, p.description = .str d ∧ OccursCI query d) ∨
  (∃ t, p.colorTheory = .str t ∧ OccursCI query t) ∨
  (∃ cs, p.colors = .arr cs ∧ ∃ c ∈ cs,
    (∃ s, c.get? "name" = some (.str s) ∧ OccursCI query s) ∨
    (∃ hx, c.get? "hex" = some (.str hx) ∧ OccursCI query hx))

/-- `true` on `some (Json.str _)`. -/
def isStrOpt : Option Json → Bool
  | some (.str _) => true
  | _ => false

/-- A color entry the search path can process without a `TypeError`:
string-valued `name` and `hex` fields. -/
def wfColor (c : Json) : Bool :=
  isStrOpt (c.get? "name") && isStrOpt (c.get? "hex")

/-- `true` on `Json.str _`. -/
def Json.isStr : Json → Bool
  | .str _ => true
  | _ => false

/-- A stored palette the search path can process without a `TypeError`:
the three searched text fields are strings and `colors` is an array of
well-formed color entries.  Every palette written through the typed
`savePalette`/`updatePalette` interface satisfies this. -/
def wfPalette (p : SavedPalette) : Bool :=
  p.name.isStr && p.description.isStr && p.colorTheory.isStr &&
  (match p.colors with
   | .arr cs => cs.all wfColor
   | _ => false)

/-! ## Concrete sample values used by the witnesses -/

/-- A sample well-formed color entry. -/
def coralColor : Json :=
  .obj [("hex", .str "#FF5733"), ("name", .str "Coral"), ("role", .str "primary")]

/-- A sample valid stored palette. -/
def sunsetPalette : SavedPalette :=
  { id := "id1", name := .str "Sunset", description := .str "",
    colors := .arr [coralColor], colorTheory := .str "",
    useCases := .arr [], category := .str "nature",
    createdAt := .str "t0", updatedAt := .str "t0" }

/-- A sample creation draft. -/
def sunsetDraft : PaletteDraft :=
  { name := .str "Sunset", description := .str "", colors := .arr [coralColor],
    colorTheory := .str "", useCases := .arr [], category := .str "nature" }

/-- The record the import path stores for a re-imported valid palette:
identical to the original except for the fresh id and refreshed
`updatedAt`. -/
def reimported (newId now : String) (p : SavedPalette) : SavedPalette :=
  { id := newId, name := p.name, description := p.description,
    colors := p.colors, colorTheory := p.colorTheory, useCases := p.useCases,
    category := p.category, createdAt := p.createdAt, updatedAt := .str now }

/-- A sample deterministic id stream standing in for `generateId`. -/
def genW : Nat → String := fun n => "palette_" ++ n.repr

/-- An id stream that is provably injective (pairwise-fresh ids). -/
def genInj : Nat → String := fun n => String.mk (List.replicate n 'x')

/-! ## Helper lemmas -/

/-- `updatePalette` never raises: every branch, including the caught
substrate write failure, returns an `.ok` value. -/
theorem updatePalette_never_raises (id : String) (updates : PaletteUpdate)
    (now : String) (wfail : Bool) (stored : List SavedPalette) :
    ∃ v, updatePalette id updates now wfail stored = .ok v := by
  unfold updatePalette
  split
  · exact ⟨_, rfl⟩
  · split
    · exact ⟨_, rfl⟩
    · split
      · exact ⟨_, rfl⟩
      · exact ⟨_, rfl⟩

/-- `deletePalette` never raises. -/
theorem deletePalette_never_raises (id : String) (wfail : Bool)
    (stored : List SavedPalette) :
    ∃ v, deletePalette id wfail stored = .ok v := by
  unfold deletePalette
  split
  · exact ⟨_, rfl⟩
  · split
    · exact ⟨_, rfl⟩
    · exact ⟨_, rfl⟩

/-! ## Claim theorems -/

/-- C7: for every id not present in the stored collection,
`updatePalette` returns `false`, `deletePalette` returns `false` leaving
the stored collection unchanged, and `getPaletteById` returns the absent
marker; none of these raises (every result is an `.ok` value or a total
`Option`). -/
theorem notFound_signaled (id : String) (updates : PaletteUpdate) (now : String)
    (uwfail dwfail : Bool) (stored : List SavedPalette)
    (h : ∀ p ∈ stored, p.id ≠ id) :
    updatePalette id updates now uwfail stored = .ok (false, stored) ∧
    deletePalette id dwfail stored = .ok (false, stored) ∧
    getPaletteById id stored = none := by
  have hidx : stored.findIdx? (fun p => p.id == id) = none := by
    rw [List.findIdx?_eq_none_iff]
    intro p hp
    simpa using h p hp
  have hfind : stored.find? (fun p => p.id == id) = none := by
    rw [List.find?_eq_none]
    intro p hp
    simpa using h p hp
  have hfilter : stored.filter (fun p => p.id != id) = stored := by
    rw [List.filter_eq_self]
    intro p hp
    simpa using h p hp
  refine ⟨?_, ?_, ?_⟩
  · simp [updatePalette, hidx]
  · simp [deletePalette, hfilter]
  · simp [getPaletteById, hfind]

/-- C7 witness: a concrete one-palette catalog and a missing id. -/
theorem notFound_signaled_witness :
    (∀ p ∈ [sunsetPalette], p.id ≠ "missing") ∧
    (updatePalette "missing" { name := some (Json.str "X") } "t1" false [sunsetPalette]
        = .ok (false, [sunsetPalette]) ∧
      deletePalette "missing" false [sunsetPalette] = .ok (false, [sunsetPalette]) ∧
      getPaletteById "missing" [sunsetPalette] = none) :=
  ⟨by decide,
   notFound_signaled "missing" { name := some (Json.str "X") } "t1" false false
     [sunsetPalette] (by decide)⟩

/-- C5 counterexample: a record with the requested id exists and the
substrate write fails, yet `updatePalette` returns `.ok false` — it does
not raise a `PersistenceError` (the source catches the write error, logs
it and returns `false`). -/
theorem updatePalette_writeFailure_returns_false :
    updatePalette "id1" { name := some (Json.str "X") } "t1" true [sunsetPalette]
      = .ok (false, [sunsetPalette]) := by
  rfl

/-- C5 (amended): if the substrate write fails, `updatePalette` returns
`false` (without raising) and leaves the stored collection unchanged —
whether or not the id exists; if no record with the id exists it returns
`false` without raising regardless of the substrate. -/
theorem updatePalette_failure_modes (id : String) (updates : PaletteUpdate)
    (now : String) (stored : List SavedPalette) :
    updatePalette id updates now true stored = .ok (false, stored) ∧
    ((∀ p ∈ stored, p.id ≠ id) → ∀ wfail,
      updatePalette id updates now wfail stored = .ok (false, stored)) := by
  constructor
  · unfold updatePalette
    split
    · rfl
    · split
      · rfl
      · rfl
  · intro h wfail
    have hidx : stored.findIdx? (fun p => p.id == id) = none := by
      rw [List.findIdx?_eq_none_iff]
      intro p hp
      simpa using h p hp
    simp [updatePalette, hidx]

/-- C5 witness: both failure modes at concrete inputs. -/
theorem updatePalette_failure_modes_witness :
    updatePalette "id1" { name := some (Json.str "Y") } "t2" true [sunsetPalette]
        = .ok (false, [sunsetPalette]) ∧
    updatePalette "missing" { name := some (Json.str "Y") } "t2" false [sunsetPalette]
        = .ok (false, [sunsetPalette]) :=
  ⟨(updatePalette_failure_modes "id1" { name := some (Json.str "Y") } "t2"
      [sunsetPalette]).1,
   (updatePalette_failure_modes "missing" { name := some (Json.str "Y") } "t2"
      [sunsetPalette]).2 (by decide) false⟩

/-- An array value is truthy. -/
theorem jsTruthy_of_isArray (v : Option Json) (h : jsIsArray v = true) :
    jsTruthy v = true := by
  rcases v with _ | w
  · simp [jsIsArray] at h
  · rcases w with _ | b | n | s | es | fields <;> simp_all [jsIsArray, jsTruthy, Json.truthy]

/-- The acceptance condition of one import record, extracted: truthy
`name` and array-valued `colors`. -/
theorem processRecord_isAccepted (newId now : String) (r : Json) :
    (processRecord newId now r).isAccepted = recAccepted r := by
  rcases r with _ | b | n | s | es | fields
  · rfl
  · rfl
  · rfl
  · rfl
  · rfl
  · simp only [processRecord, recAccepted, Json.get?]
    rcases ha : jsTruthy (lookupLast fields "name") <;>
      rcases hc : jsIsArray (lookupLast fields "colors")
    · simp [ha, hc, RecOutcome.isAccepted]
    · simp [ha, hc, RecOutcome.isAccepted]
    · simp [ha, hc, RecOutcome.isAccepted]
    · have hb : jsTruthy (lookupLast fields "colors") = true :=
        jsTruthy_of_isArray (lookupLast fields "colors") hc
      simp [ha, hb, hc, RecOutcome.isAccepted]

/-- A record failing the acceptance condition is reported with exactly
one error message. -/
theorem processRecord_err_of_not (newId now : String) (r : Json)
    (h : recAccepted r = false) : ∃ m, processRecord newId now r = .err m := by
  have ha := processRecord_isAccepted newId now r
  rw [h] at ha
  cases hpr : processRecord newId now r with
  | ok q => rw [hpr] at ha; cases ha
  | err m => exact ⟨m, rfl⟩

/-- C10: `importPalettes` accepts a record exactly when its `name` field
is a truthy value and its `colors` field is an array; a record whose
`name` is the empty string is rejected and reported as `unnamed` even
though it has a string-typed `name` field. -/
theorem importRecord_acceptance (newId now : String) (r : Json) :
    ((processRecord newId now r).isAccepted
        = (jsTruthy (r.get? "name") && jsIsArray (r.get? "colors"))) ∧
    (r.get? "name" = some (Json.str "") →
      processRecord newId now r = .err "Invalid palette: unnamed") := by
  constructor
  · exact processRecord_isAccepted newId now r
  · intro h
    rcases r with _ | b | n | s | es | fields <;> simp [Json.get?] at h
    have hname : lookupLast fields "name" = some (Json.str "") := h
    simp [processRecord, Json.get?, hname, jsTruthy, Json.truthy, jsOrUnnamed]

/-- C10 witness: the empty-name record is rejected with the `unnamed`
message, and a record with truthy name and array colors is accepted. -/
theorem importRecord_acceptance_witness :
    processRecord "i" "T" (Json.obj [("name", Json.str ""), ("colors", Json.arr [])])
        = .err "Invalid palette: unnamed" ∧
    (processRecord "i" "T"
        (Json.obj [("name", Json.str "A"), ("colors", Json.arr [])])).isAccepted = true :=
  ⟨(importRecord_acceptance "i" "T"
      (Json.obj [("name", Json.str ""), ("colors", Json.arr [])])).2 rfl,
   ((importRecord_acceptance "i" "T"
      (Json.obj [("name", Json.str "A"), ("colors", Json.arr [])])).1).trans (by decide)⟩

/-- C4: `importPalettes` writes to the substrate at most once, at the
end (the only possible write payload is the final collection), and only
if at least one record was accepted; a non-JSON input or a JSON input
that is not an array yields `success = 0`, exactly one error message, and
an unchanged stored collection with no write. -/
theorem importPalettes_atomic (gen : Nat → String) (ctr : Nat) (now : String)
    (parsed : Except String Json) (stored : List SavedPalette) :
    ((importPalettes gen ctr now parsed stored).writes = []
      ∨ (importPalettes gen ctr now parsed stored).writes
          = [(importPalettes gen ctr now parsed stored).stored]) ∧
    ((importPalettes gen ctr now parsed stored).writes ≠ [] ↔
      0 < (importPalettes gen ctr now parsed stored).result.success) ∧
    ((importPalettes gen ctr now parsed stored).result.success = 0 →
      (importPalettes gen ctr now parsed stored).stored = stored ∧
      (importPalettes gen ctr now parsed stored).writes = []) ∧
    (∀ m, parsed = .error m →
      (importPalettes gen ctr now parsed stored).result.success = 0 ∧
      (importPalettes gen ctr now parsed stored).result.errors.length = 1) ∧
    (∀ j, parsed = .ok j → (∀ rs, j ≠ .arr rs) →
      (importPalettes gen ctr now parsed stored).result.success = 0 ∧
      (importPalettes gen ctr now parsed stored).result.errors.length = 1) := by
  rcases parsed with m | j
  · refine ⟨Or.inl rfl, by simp [importPalettes], by simp [importPalettes], ?_, ?_⟩
    · intro m2 hm; cases hm; simp [importPalettes]
    · intro j hj _; cases hj
  · rcases j with _ | b | n | s | es | fields
    · refine ⟨Or.inl rfl, by simp [importPalettes], by simp [importPalettes], ?_, ?_⟩
      · intro m hm; cases hm
      · intro j hj _; cases hj; simp [importPalettes]
    · refine ⟨Or.inl rfl, by simp [importPalettes], by simp [importPalettes], ?_, ?_⟩
      · intro m hm; cases hm
      · intro j hj _; cases hj; simp [importPalettes]
    · refine ⟨Or.inl rfl, by simp [importPalettes], by simp [importPalettes], ?_, ?_⟩
      · intro m hm; cases hm
      · intro j hj _; cases hj; simp [importPalettes]
    · refine ⟨Or.inl rfl, by simp [importPalettes], by simp [importPalettes], ?_, ?_⟩
      · intro m hm; cases hm
      · intro j hj _; cases hj; simp [importPalettes]
    · by_cases h : 0 < (runImport gen now es ctr).successCount
      · refine ⟨Or.inr ?_, ?_, ?_, ?_, ?_⟩
        · simp [importPalettes, h]
        · simp [importPalettes, h]
        · intro h0; simp [importPalettes, h] at h0 ⊢; omega
        · intro m hm; cases hm
        · intro j hj hne; cases hj; exact absurd rfl (hne es)
      · refine ⟨Or.inl ?_, ?_, ?_, ?_, ?_⟩
        · simp [importPalettes, h]
        · simp [importPalettes, h]
        · intro _; simp [importPalettes, h]
        · intro m hm; cases hm
        · intro j hj hne; cases hj; exact absurd rfl (hne es)
    · refine ⟨Or.inl rfl, by simp [importPalettes], by simp [importPalettes], ?_, ?_⟩
      · intro m hm; cases hm
      · intro j hj _; cases hj; simp [importPalettes]

/-- C4 witness: a parse failure at a concrete input. -/
theorem importPalettes_atomic_witness :
    (importPalettes genW 0 "T" (.error "Unexpected token") []).result.success = 0 ∧
    (importPalettes genW 0 "T" (.error "Unexpected token") []).result.errors.length = 1 ∧
    (importPalettes genW 0 "T" (.ok (Json.obj [])) []).result.success = 0 ∧
    (importPalettes genW 0 "T" (.ok (Json.obj [])) []).result.errors.length = 1 :=
  ⟨((importPalettes_atomic genW 0 "T" (.error "Unexpected token") []).2.2.2.1
      "Unexpected token" rfl).1,
   ((importPalettes_atomic genW 0 "T" (.error "Unexpected token") []).2.2.2.1
      "Unexpected token" rfl).2,
   ((importPalettes_atomic genW 0 "T" (.ok (Json.obj [])) []).2.2.2.2
      (Json.obj []) rfl (fun rs h => by cases h)).1,
   ((importPalettes_atomic genW 0 "T" (.ok (Json.obj [])) []).2.2.2.2
      (Json.obj []) rfl (fun rs h => by cases h)).2⟩

theorem jsOr_none (d : Json) : jsOr none d = d := rfl

theorem jsOr_some_truthy (v d : Json) (h : v.truthy = true) : jsOr (some v) d = v := by
  simp [jsOr, h]

theorem jsOr_some_falsy (v d : Json) (h : v.truthy = false) : jsOr (some v) d = d := by
  simp [jsOr, h]

/-- An accepted record is stored with the given fresh id, `name` taken
verbatim, the `|| default` fields, and `updatedAt` set to now. -/
theorem processRecord_ok_spec (newId now : String) (r : Json)
    (h : recAccepted r = true) :
    ∃ q, processRecord newId now r = .ok q ∧ q.id = newId ∧
      ImportedRecordSpec now r q := by
  have h1 : jsTruthy (r.get? "name") = true := by
    have h2 := h
    simp only [recAccepted, Bool.and_eq_true] at h2
    exact h2.1
  have h2 : jsIsArray (r.get? "colors") = true := by
    have h2 := h
    simp only [recAccepted, Bool.and_eq_true] at h2
    exact h2.2
  rcases r with _ | b | n | s | es | fields
  · simp [Json.get?, jsTruthy] at h1
  · simp [Json.get?, jsTruthy] at h1
  · simp [Json.get?, jsTruthy] at h1
  · simp [Json.get?, jsTruthy] at h1
  · simp [Json.get?, jsTruthy] at h1
  · have hb : jsTruthy (Json.get? (.obj fields) "colors") = true :=
      jsTruthy_of_isArray _ h2
    simp only [Json.get?] at h1 h2 hb
    refine ⟨{ id := newId,
              name := (lookupLast fields "name").getD .null,
              description := jsOr (lookupLast fields "description") (.str ""),
              colors := (lookupLast fields "colors").getD .null,
              colorTheory := jsOr (lookupLast fields "colorTheory") (.str ""),
              useCases := jsOr (lookupLast fields "useCases") (.arr []),
              category := jsOr (lookupLast fields "category") (.str "custom"),
              createdAt := jsOr (lookupLast fields "createdAt") (.str now),
              updatedAt := .str now }, ?_, rfl, ?_⟩
    · simp only [processRecord, Json.get?]
      rw [if_neg]
      simp [h1, hb, h2]
    · refine ⟨?_, rfl, ?_, ?_, ?_, ?_, ?_, ?_, ?_⟩
      · intro v hv
        simp only [Json.get?] at hv
        simp [hv]
      · intro hd
        simp only [Json.get?] at hd
        simp [hd, jsOr_none]
      · intro ht
        simp only [Json.get?] at ht
        simp [ht, jsOr_none]
      · intro hu
        simp only [Json.get?] at hu
        simp [hu, jsOr_none]
      · intro hc
        simp only [Json.get?] at hc
        simp [hc, jsOr_none]
      · intro v hv htr
        simp only [Json.get?] at hv
        simp [hv, jsOr_some_truthy _ _ htr]
      · intro hn
        simp only [Json.get?] at hn
        simp [hn, jsOr_none]
      · intro v hv hf
        simp only [Json.get?] at hv
        simp [hv, jsOr_some_falsy _ _ hf]

/-- The import loop: counts, per-record outcomes, and freshness of the
generated ids. -/
theorem runImport_spec (gen : Nat → String) (now : String) (rs : List Json)
    (ctr : Nat) :
    (runImport gen now rs ctr).successCount = rs.countP recAccepted ∧
    (runImport gen now rs ctr).successCount
        + (runImport gen now rs ctr).errors.length = rs.length ∧
    (runImport gen now rs ctr).palettes.length
        = (runImport gen now rs ctr).successCount ∧
    List.Forall₂ (ImportedRecordSpec now) (rs.filter recAccepted)
        (runImport gen now rs ctr).palettes ∧
    (runImport gen now rs ctr).palettes.map SavedPalette.id
        = (List.range (runImport gen now rs ctr).palettes.length).map
            (fun k => gen (ctr + k)) := by
  induction rs generalizing ctr with
  | nil => simp [runImport]
  | cons r rs ih =>
    rcases hacc : recAccepted r with _ | _
    · obtain ⟨m, hm⟩ := processRecord_err_of_not (gen ctr) now r hacc
      have hr : runImport gen now (r :: rs) ctr
          = { palettes := (runImport gen now rs ctr).palettes,
              errors := m :: (runImport gen now rs ctr).errors,
              successCount := (runImport gen now rs ctr).successCount,
              nextCtr := (runImport gen now rs ctr).nextCtr } := by
        simp [runImport, hm]
      obtain ⟨ih1, ih2, ih3, ih4, ih5⟩ := ih ctr
      rw [hr]
      refine ⟨?_, ?_, ih3, ?_, ih5⟩
      · simpa [List.countP_cons, hacc] using ih1
      · simp only [List.length_cons]
        omega
      · simpa [List.filter_cons, hacc] using ih4
    · obtain ⟨q, hq, hqid, hqspec⟩ := processRecord_ok_spec (gen ctr) now r hacc
      have hr : runImport gen now (r :: rs) ctr
          = { palettes := q :: (runImport gen now rs (ctr + 1)).palettes,
              errors := (runImport gen now rs (ctr + 1)).errors,
              successCount := (runImport gen now rs (ctr + 1)).successCount + 1,
              nextCtr := (runImport gen now rs (ctr + 1)).nextCtr } := by
        simp [runImport, hq]
      obtain ⟨ih1, ih2, ih3, ih4, ih5⟩ := ih (ctr + 1)
      rw [hr]
      refine ⟨?_, ?_, ?_, ?_, ?_⟩
      · simp [List.countP_cons, hacc, ih1]
      · simp only [List.length_cons]
        omega
      · simp [ih3]
      · simpa [List.filter_cons, hacc] using List.Forall₂.cons hqspec ih4
      · simp only [List.map_cons, List.length_cons, List.range_succ_eq_map,
          List.map_map, hqid, ih5]
        rw [List.cons_eq_cons]
        refine ⟨by simp, ?_⟩
        apply List.map_congr_left
        intro k _
        simp only [Function.comp]
        congr 1
        omega

/-- C3 (amended): records are validated independently; each rejected
record contributes exactly one error message without aborting the batch;
the accepted records are appended with fresh ids drawn in order from the
generator, `name` verbatim, `updatedAt` set to now, documented defaults
for absent optional fields, and `createdAt` preserved when present and
truthy — a present-but-falsy `createdAt` is replaced by now; the returned
count equals the number of accepted records. -/
theorem importPalettes_validation (gen : Nat → String) (ctr : Nat) (now : String)
    (rs : List Json) (stored : List SavedPalette) :
    (importPalettes gen ctr now (.ok (.arr rs)) stored).result.success
        = rs.countP recAccepted ∧
    (importPalettes gen ctr now (.ok (.arr rs)) stored).result.success
        + (importPalettes gen ctr now (.ok (.arr rs)) stored).result.errors.length
        = rs.length ∧
    ∃ appended,
      (importPalettes gen ctr now (.ok (.arr rs)) stored).stored
          = stored ++ appended ∧
      List.Forall₂ (ImportedRecordSpec now) (rs.filter recAccepted) appended ∧
      appended.map SavedPalette.id
          = (List.range appended.length).map (fun k => gen (ctr + k)) := by
  obtain ⟨h1, h2, h3, h4, h5⟩ := runImport_spec gen now rs ctr
  by_cases hpos : 0 < (runImport gen now rs ctr).successCount
  · have hred : importPalettes gen ctr now (.ok (.arr rs)) stored
        = { result := { success := (runImport gen now rs ctr).successCount,
                        errors := (runImport gen now rs ctr).errors },
            stored := stored ++ (runImport gen now rs ctr).palettes,
            nextCtr := (runImport gen now rs ctr).nextCtr,
            writes := [stored ++ (runImport gen now rs ctr).palettes] } := by
      simp only [importPalettes]
      rw [if_pos hpos]
    rw [hred]
    exact ⟨h1, by simpa using h2, (runImport gen now rs ctr).palettes, rfl, h4, h5⟩
  · have hz : (runImport gen now rs ctr).successCount = 0 := by omega
    have hnil : (runImport gen now rs ctr).palettes = [] :=
      List.length_eq_zero.mp (by rw [h3, hz])
    have hred : importPalettes gen ctr now (.ok (.arr rs)) stored
        = { result := { success := (runImport gen now rs ctr).successCount,
                        errors := (runImport gen now rs ctr).errors },
            stored := stored,
            nextCtr := (runImport gen now rs ctr).nextCtr,
            writes := [] } := by
      simp only [importPalettes]
      rw [if_neg hpos]
    rw [hred]
    exact ⟨h1, by simpa using h2, (runImport gen now rs ctr).palettes,
      by rw [hnil, List.append_nil], h4, h5⟩

/-- C3 witness: one accepted and one rejected record at concrete inputs. -/
theorem importPalettes_validation_witness :
    (importPalettes genW 5 "T"
        (.ok (.arr [Json.obj [("name", Json.str "Good"), ("colors", Json.arr [])],
                    Json.obj [("colors", Json.arr [])]])) []).result.success
        = [Json.obj [("name", Json.str "Good"), ("colors", Json.arr [])],
           Json.obj [("colors", Json.arr [])]].countP recAccepted ∧
    (importPalettes genW 5 "T"
        (.ok (.arr [Json.obj [("name", Json.str "Good"), ("colors", Json.arr [])],
                    Json.obj [("colors", Json.arr [])]])) []).result.success
        + (importPalettes genW 5 "T"
            (.ok (.arr [Json.obj [("name", Json.str "Good"), ("colors", Json.arr [])],
                        Json.obj [("colors", Json.arr [])]])) []).result.errors.length
        = 2 ∧
    ∃ appended,
      (importPalettes genW 5 "T"
          (.ok (.arr [Json.obj [("name", Json.str "Good"), ("colors", Json.arr [])],
                      Json.obj [("colors", Json.arr [])]])) []).stored
          = [] ++ appended ∧
      List.Forall₂ (ImportedRecordSpec "T")
          ([Json.obj [("name", Json.str "Good"), ("colors", Json.arr [])],
            Json.obj [("colors", Json.arr [])]].filter recAccepted) appended ∧
      appended.map SavedPalette.id
          = (List.range appended.length).map (fun k => genW (5 + k)) :=
  importPalettes_validation genW 5 "T"
    [Json.obj [("name", Json.str "Good"), ("colors", Json.arr [])],
     Json.obj [("colors", Json.arr [])]] []

/-- C3 counterexample: a record with a present but falsy `createdAt`
(the empty string) is stored with `createdAt` set to the import time, not
the input value — so "createdAt preserved from the input if present" is
false as stated. -/
theorem importPalettes_createdAt_not_preserved :
    (importPalettes genW 0 "2024-06-01T00:00:00.000Z"
        (.ok (.arr [Json.obj [("name", Json.str "A"), ("colors", Json.arr []),
                              ("createdAt", Json.str "")]]))
        []).stored.map SavedPalette.createdAt
      = [Json.str "2024-06-01T00:00:00.000Z"] ∧
    "2024-06-01T00:00:00.000Z" ≠ "" := by
  exact ⟨rfl, by decide⟩

/-- Import-loop freshness: every produced id comes from a generator
index in `[ctr, nextCtr)`, and for an injective generator the produced
ids are pairwise distinct. -/
theorem runImport_fresh (gen : Nat → String) (now : String) (rs : List Json)
    (ctr : Nat) :
    ctr ≤ (runImport gen now rs ctr).nextCtr ∧
    (∀ p ∈ (runImport gen now rs ctr).palettes,
      ∃ k, ctr ≤ k ∧ k < (runImport gen now rs ctr).nextCtr ∧ p.id = gen k) ∧
    (Function.Injective gen →
      ((runImport gen now rs ctr).palettes.map SavedPalette.id).Nodup) := by
  induction rs generalizing ctr with
  | nil => simp [runImport]
  | cons r rs ih =>
    cases hpr : processRecord (gen ctr) now r with
    | err m =>
      have hr : runImport gen now (r :: rs) ctr
          = { palettes := (runImport gen now rs ctr).palettes,
              errors := m :: (runImport gen now rs ctr).errors,
              successCount := (runImport gen now rs ctr).successCount,
              nextCtr := (runImport gen now rs ctr).nextCtr } := by
        simp [runImport, hpr]
      rw [hr]
      exact ih ctr
    | ok p =>
      have hpid : p.id = gen ctr := by
        rcases hacc : recAccepted r with _ | _
        · obtain ⟨m, hm⟩ := processRecord_err_of_not (gen ctr) now r hacc
          rw [hm] at hpr
          cases hpr
        · obtain ⟨q, hq, hqid, _⟩ := processRecord_ok_spec (gen ctr) now r hacc
          rw [hq] at hpr
          cases hpr
          exact hqid
      have hr : runImport gen now (r :: rs) ctr
          = { palettes := p :: (runImport gen now rs (ctr + 1)).palettes,
              errors := (runImport gen now rs (ctr + 1)).errors,
              successCount := (runImport gen now rs (ctr + 1)).successCount + 1,
              nextCtr := (runImport gen now rs (ctr + 1)).nextCtr } := by
        simp [runImport, hpr]
      obtain ⟨ih1, ih2, ih3⟩ := ih (ctr + 1)
      rw [hr]
      dsimp only
      refine ⟨by omega, ?_, ?_⟩
      · intro q hq
        rcases List.mem_cons.mp hq with hq2 | hq2
        · exact ⟨ctr, le_refl ctr, by omega, by rw [hq2, hpid]⟩
        · obtain ⟨k, hk1, hk2, hk3⟩ := ih2 q hq2
          exact ⟨k, by omega, hk2, hk3⟩
      · intro hg
        simp only [List.map_cons, List.nodup_cons]
        refine ⟨?_, ih3 hg⟩
        intro hmem
        obtain ⟨q, hq, hqeq⟩ := List.mem_map.mp hmem
        obtain ⟨k, hk1, _, hk3⟩ := ih2 q hq
        rw [hpid] at hqeq
        rw [hk3] at hqeq
        have : k = ctr := hg hqeq
        omega

/-- The C2 invariant: every stored id was produced by the generator at an
index below the current counter, and the stored ids are pairwise
distinct. -/
def CatInv (gen : Nat → String) (st : List SavedPalette × Nat) : Prop :=
  (∀ p ∈ st.1, ∃ k, k < st.2 ∧ p.id = gen k) ∧
  (st.1.map SavedPalette.id).Nodup

/-- The record `savePalette` appends on a successful write: its id is
the freshly generated one and the counter advances by one. -/
theorem savePalette_ok_spec (gen : Nat → String) (ctr : Nat) (now : String)
    (draft : PaletteDraft) (stored : List SavedPalette) :
    ∃ q, (savePalette gen ctr now draft false stored).stored = stored ++ [q] ∧
      q.id = gen ctr ∧
      (savePalette gen ctr now draft false stored).nextCtr = ctr + 1 :=
  ⟨_, rfl, rfl, rfl⟩

/-- On a failed write `savePalette` leaves the collection unchanged but
has already consumed one generated id. -/
theorem savePalette_fail_spec (gen : Nat → String) (ctr : Nat) (now : String)
    (draft : PaletteDraft) (stored : List SavedPalette) :
    (savePalette gen ctr now draft true stored).stored = stored ∧
    (savePalette gen ctr now draft true stored).nextCtr = ctr + 1 :=
  ⟨rfl, rfl⟩

/-- Each catalog operation preserves the C2 invariant. -/
theorem applyOp_preserves (gen : Nat → String) (hg : Function.Injective gen)
    (st : List SavedPalette × Nat) (op : CatalogOp) (h : CatInv gen st) :
    CatInv gen (applyOp gen st op) := by
  obtain ⟨hbound, hnodup⟩ := h
  cases op with
  | create draft now wfail =>
    cases wfail with
    | true =>
      obtain ⟨hst, hct⟩ := savePalette_fail_spec gen st.2 now draft st.1
      have hred : applyOp gen st (.create draft now true) = (st.1, st.2 + 1) := by
        simp only [applyOp]
        rw [hst, hct]
      rw [hred]
      refine ⟨?_, hnodup⟩
      intro p hp
      obtain ⟨k, hk, hkid⟩ := hbound p hp
      exact ⟨k, by omega, hkid⟩
    | false =>
      obtain ⟨q, hst, hqid, hct⟩ := savePalette_ok_spec gen st.2 now draft st.1
      have hred : applyOp gen st (.create draft now false)
          = (st.1 ++ [q], st.2 + 1) := by
        simp only [applyOp]
        rw [hst, hct]
      rw [hred]
      refine ⟨?_, ?_⟩
      · intro p hp
        rcases List.mem_append.mp hp with hp2 | hp2
        · obtain ⟨k, hk, hkid⟩ := hbound p hp2
          exact ⟨k, by omega, hkid⟩
        · refine ⟨st.2, by omega, ?_⟩
          rw [List.mem_singleton.mp hp2, hqid]
      · rw [List.map_append, List.nodup_append]
        refine ⟨hnodup, by simp, ?_⟩
        intro a ha hb
        obtain ⟨p, hp, hpa⟩ := List.mem_map.mp ha
        obtain ⟨k, hk, hkid⟩ := hbound p hp
        simp only [List.map_cons, List.map_nil, List.mem_singleton] at hb
        have h3 : gen k = gen st.2 := by rw [← hkid, hpa, hb, hqid]
        have := hg h3
        omega
  | importAll parsed now =>
    rcases parsed with m | j
    · exact ⟨hbound, hnodup⟩
    · rcases j with _ | b | n | s | es | fields
      case arr =>
        obtain ⟨hle, hmem, hnd⟩ := runImport_fresh gen now es st.2
        by_cases hpos : 0 < (runImport gen now es st.2).successCount
        · have hred : applyOp gen st (.importAll (.ok (.arr es)) now)
              = (st.1 ++ (runImport gen now es st.2).palettes,
                 (runImport gen now es st.2).nextCtr) := by
            simp only [applyOp, importPalettes]
            rw [if_pos hpos]
          rw [hred]
          refine ⟨?_, ?_⟩
          · intro p hp
            rcases List.mem_append.mp hp with hp2 | hp2
            · obtain ⟨k, hk, hkid⟩ := hbound p hp2
              exact ⟨k, by omega, hkid⟩
            · obtain ⟨k, hk1, hk2, hk3⟩ := hmem p hp2
              exact ⟨k, hk2, hk3⟩
          · rw [List.map_append, List.nodup_append]
            refine ⟨hnodup, hnd hg, ?_⟩
            intro a ha hb
            obtain ⟨p, hp, hpa⟩ := List.mem_map.mp ha
            obtain ⟨k, hk, hkid⟩ := hbound p hp
            obtain ⟨p2, hp2, hpa2⟩ := List.mem_map.mp hb
            obtain ⟨k2, hk21, hk22, hk23⟩ := hmem p2 hp2
            have : gen k = gen k2 := by
              rw [← hkid, hpa, ← hpa2, hk23]
            have := hg this
            omega
        · have hred : applyOp gen st (.importAll (.ok (.arr es)) now)
              = (st.1, (runImport gen now es st.2).nextCtr) := by
            simp only [applyOp, importPalettes]
            rw [if_neg hpos]
          rw [hred]
          refine ⟨?_, hnodup⟩
          intro p hp
          obtain ⟨k, hk, hkid⟩ := hbound p hp
          exact ⟨k, by omega, hkid⟩
      all_goals
        exact ⟨hbound, hnodup⟩

/-- C2: after any finite sequence of `savePalette` and `importPalettes`
calls starting from an empty catalog, and for an id generator that never
repeats (the practical-certainty assumption of `generateId`), the ids of
the stored palettes are pairwise distinct. -/
theorem catalog_ids_distinct (gen : Nat → String)
    (hg : Function.Injective gen) (ops : List CatalogOp) :
    ((runOps gen ops).1.map SavedPalette.id).Nodup := by
  have main : ∀ (l : List CatalogOp) (st : List SavedPalette × Nat),
      CatInv gen st → CatInv gen (l.foldl (applyOp gen) st) := by
    intro l
    induction l with
    | nil => intro st h; exact h
    | cons op l2 ih =>
      intro st h
      exact ih (applyOp gen st op) (applyOp_preserves gen hg st op h)
  exact (main ops ([], 0) ⟨by simp, by simp⟩).2

/-- The sample injective id stream really is injective. -/
theorem genInj_injective : Function.Injective genInj := by
  intro a b h
  simp only [genInj] at h
  have h2 : List.replicate a 'x' = List.replicate b 'x' := congrArg String.data h
  simpa using congrArg List.length h2

/-- C2 witness: a concrete operation sequence under the injective
generator. -/
theorem catalog_ids_distinct_witness :
    Function.Injective genInj ∧
    ((runOps genInj
        [CatalogOp.create sunsetDraft "t0" false,
         CatalogOp.importAll
           (.ok (.arr [Json.obj [("name", Json.str "Good"),
                                 ("colors", Json.arr [])]])) "t1",
         CatalogOp.create sunsetDraft "t2" false]).1.map SavedPalette.id).Nodup :=
  ⟨genInj_injective, catalog_ids_distinct genInj genInj_injective _⟩

theorem jsOr_str_keeps (d : String) : jsOr (some (.str d)) (.str "") = .str d := by
  by_cases h : d = ""
  · rw [h]
    rfl
  · exact jsOr_some_truthy _ _ (by simp [Json.truthy, h])

/-- Exporting a valid palette and processing the resulting record
re-imports it unchanged except for `id` and `updatedAt`. -/
theorem processRecord_roundtrip (newId now : String) (p : SavedPalette)
    (hv : ValidPalette p) :
    processRecord newId now (paletteToJson p) = .ok (reimported newId now p) := by
  simp only [reimported]
  obtain ⟨⟨n, hn, hname⟩, ⟨d, hdesc⟩, ⟨cs, hcol⟩, ⟨t, hth⟩, ⟨us, hus⟩,
    ⟨c, hc, hcat⟩, ⟨ca, hca, hcre⟩⟩ := hv
  simp only [processRecord, paletteToJson, Json.get?]
  rw [if_neg]
  · congr 1
    refine SavedPalette.mk.injEq _ _ _ _ _ _ _ _ _ _ _ _ _ _ _ _ _ _
      |>.mpr ⟨rfl, ?_, ?_, ?_, ?_, ?_, ?_, ?_, rfl⟩
    · simp [lookupLast]
    · simp only [lookupLast, hdesc]
      simp [jsOr_str_keeps]
    · simp [lookupLast]
    · simp only [lookupLast, hth]
      simp [jsOr_str_keeps]
    · simp only [lookupLast, hus]
      simp [jsOr, Json.truthy]
    · simp only [lookupLast, hcat]
      simp [jsOr, Json.truthy, hc]
    · simp only [lookupLast, hcre]
      simp [jsOr, Json.truthy, hca]
  · simp only [lookupLast]
    simp [hname, hcol, jsTruthy, Json.truthy, jsIsArray, hn]

/-- The import loop over a valid exported list accepts every record and
rebuilds the list in order, fields preserved. -/
theorem runImport_roundtrip (gen : Nat → String) (now : String)
    (L : List SavedPalette) (ctr : Nat) (hL : ∀ p ∈ L, ValidPalette p) :
    (runImport gen now (L.map paletteToJson) ctr).errors = [] ∧
    (runImport gen now (L.map paletteToJson) ctr).successCount = L.length ∧
    List.Forall₂ (RoundtripAgrees now) L
        (runImport gen now (L.map paletteToJson) ctr).palettes ∧
    (runImport gen now (L.map paletteToJson) ctr).palettes.map SavedPalette.id
        = (List.range L.length).map (fun k => gen (ctr + k)) := by
  induction L generalizing ctr with
  | nil => simp [runImport]
  | cons p L ih =>
    have hp := processRecord_roundtrip (gen ctr) now p (hL p (by simp))
    have hr : runImport gen now ((p :: L).map paletteToJson) ctr
        = { palettes := reimported (gen ctr) now p
              :: (runImport gen now (L.map paletteToJson) (ctr + 1)).palettes,
            errors := (runImport gen now (L.map paletteToJson) (ctr + 1)).errors,
            successCount :=
              (runImport gen now (L.map paletteToJson) (ctr + 1)).successCount + 1,
            nextCtr := (runImport gen now (L.map paletteToJson) (ctr + 1)).nextCtr } := by
      simp only [List.map_cons, runImport, hp]
    obtain ⟨ih1, ih2, ih3, ih4⟩ :=
      ih (ctr + 1) (fun q hq => hL q (List.mem_cons_of_mem p hq))
    rw [hr]
    dsimp only
    refine ⟨ih1, by rw [ih2, List.length_cons], ?_, ?_⟩
    · exact List.Forall₂.cons ⟨rfl, rfl, rfl, rfl, rfl, rfl, rfl, rfl⟩ ih3
    · simp only [List.map_cons, List.length_cons, List.range_succ_eq_map,
        List.map_map, ih4]
      rw [List.cons_eq_cons]
      refine ⟨by simp [reimported], ?_⟩
      apply List.map_congr_left
      intro k _
      simp only [Function.comp]
      congr 1
      omega

/-- C1: serializing a valid palette list and importing it into an empty
catalog stores a list of the same length whose records agree with the
originals on name, description, colors, colorTheory, useCases, category
and createdAt, every id being freshly generated (drawn in order from the
generator) and every updatedAt set to the import time. -/
theorem export_import_roundtrip (gen : Nat → String) (ctr : Nat) (now : String)
    (L : List SavedPalette) (hL : ∀ p ∈ L, ValidPalette p) :
    (importPalettes gen ctr now (.ok (exportPalettes L)) []).result.success
        = L.length ∧
    (importPalettes gen ctr now (.ok (exportPalettes L)) []).result.errors = [] ∧
    (importPalettes gen ctr now (.ok (exportPalettes L)) []).stored.length
        = L.length ∧
    List.Forall₂ (RoundtripAgrees now) L
        (importPalettes gen ctr now (.ok (exportPalettes L)) []).stored ∧
    (importPalettes gen ctr now (.ok (exportPalettes L)) []).stored.map
        SavedPalette.id = (List.range L.length).map (fun k => gen (ctr + k)) := by
  obtain ⟨h1, h2, h3, h4⟩ := runImport_roundtrip gen now L ctr hL
  rcases L with _ | ⟨p, L2⟩
  · refine ⟨?_, ?_, ?_, ?_, ?_⟩ <;> simp [importPalettes, exportPalettes, runImport]
  · have hpos : 0 < (runImport gen now ((p :: L2).map paletteToJson) ctr).successCount := by
      rw [h2]
      simp
    have hred : importPalettes gen ctr now (.ok (exportPalettes (p :: L2))) []
        = ImportOut.mk
            (ImportResult.mk
              (runImport gen now ((p :: L2).map paletteToJson) ctr).successCount
              (runImport gen now ((p :: L2).map paletteToJson) ctr).errors)
            ([] ++ (runImport gen now ((p :: L2).map paletteToJson) ctr).palettes)
            (runImport gen now ((p :: L2).map paletteToJson) ctr).nextCtr
            [[] ++ (runImport gen now ((p :: L2).map paletteToJson) ctr).palettes] := by
      simp only [importPalettes, exportPalettes]
      rw [if_pos hpos]
    rw [hred]
    dsimp only
    rw [List.nil_append]
    have hlen : (runImport gen now ((p :: L2).map paletteToJson) ctr).palettes.length
        = (p :: L2).length := List.Forall₂.length_eq h3 |>.symm
    exact ⟨h2, h1, hlen, h3, by rw [h4]⟩

/-- C1 witness: a concrete valid list round-trips. -/
theorem export_import_roundtrip_witness :
    (∀ p ∈ [sunsetPalette], ValidPalette p) ∧
    ((importPalettes genW 3 "T2" (.ok (exportPalettes [sunsetPalette])) []).result.success
        = [sunsetPalette].length ∧
     (importPalettes genW 3 "T2" (.ok (exportPalettes [sunsetPalette])) []).result.errors = [] ∧
     (importPalettes genW 3 "T2" (.ok (exportPalettes [sunsetPalette])) []).stored.length
        = [sunsetPalette].length ∧
     List.Forall₂ (RoundtripAgrees "T2") [sunsetPalette]
        (importPalettes genW 3 "T2" (.ok (exportPalettes [sunsetPalette])) []).stored ∧
     (importPalettes genW 3 "T2" (.ok (exportPalettes [sunsetPalette])) []).stored.map
        SavedPalette.id = (List.range [sunsetPalette].length).map (fun k => genW (3 + k))) := by
  have hv : ∀ p ∈ [sunsetPalette], ValidPalette p := by
    intro p hp
    rw [List.mem_singleton.mp hp]
    exact ⟨⟨"Sunset", by decide, rfl⟩, ⟨"", rfl⟩, ⟨[coralColor], rfl⟩, ⟨"", rfl⟩,
      ⟨[], rfl⟩, ⟨"nature", by decide, rfl⟩, ⟨"t0", by decide, rfl⟩⟩
  exact ⟨hv, export_import_roundtrip genW 3 "T2" [sunsetPalette] hv⟩

/-- C8: updating the name of an existing record (with a successful
write) leaves its `createdAt` unchanged, sets its `updatedAt` to the
operation time — which is `≥` the previous `updatedAt` whenever the clock
is monotone — and leaves every other record of the collection
unchanged. -/
theorem updatePalette_frame (id x now : String) (stored : List SavedPalette)
    (i : Nat) (old : SavedPalette)
    (hidx : stored.findIdx? (fun p => p.id == id) = some i)
    (hold : stored.get? i = some old) :
    updatePalette id { name := some (.str x) } now false stored
        = .ok (true, stored.set i (applyUpdate old { name := some (.str x) } now)) ∧
    (applyUpdate old { name := some (.str x) } now).createdAt = old.createdAt ∧
    (applyUpdate old { name := some (.str x) } now).updatedAt = .str now ∧
    (∀ t, old.updatedAt = .str t → t ≤ now →
      ∃ t0 t1, old.updatedAt = .str t0 ∧
        (applyUpdate old { name := some (.str x) } now).updatedAt = .str t1 ∧
        t0 ≤ t1) ∧
    (∀ j, j ≠ i →
      (stored.set i (applyUpdate old { name := some (.str x) } now)).get? j
        = stored.get? j) := by
  have hold2 : stored[i]? = some old := by
    rw [← List.get?_eq_getElem?]
    exact hold
  refine ⟨?_, rfl, rfl, ?_, ?_⟩
  · simp [updatePalette, hidx, hold2]
  · intro t ht hle
    exact ⟨t, now, ht, rfl, hle⟩
  · intro j hj
    rw [List.get?_eq_getElem?, List.get?_eq_getElem?]
    exact List.getElem?_set_ne (fun h => hj h.symm)

/-- C8 witness: updating the sample palette in a one-element catalog. -/
theorem updatePalette_frame_witness :
    ([sunsetPalette].findIdx? (fun p => p.id == "id1") = some 0 ∧
     [sunsetPalette].get? 0 = some sunsetPalette) ∧
    (updatePalette "id1" { name := some (.str "X") } "t1" false [sunsetPalette]
        = .ok (true, [sunsetPalette].set 0
            (applyUpdate sunsetPalette { name := some (.str "X") } "t1")) ∧
     (applyUpdate sunsetPalette { name := some (.str "X") } "t1").createdAt
        = sunsetPalette.createdAt ∧
     (applyUpdate sunsetPalette { name := some (.str "X") } "t1").updatedAt
        = .str "t1" ∧
     (∀ t, sunsetPalette.updatedAt = .str t → t ≤ "t1" →
       ∃ t0 t1, sunsetPalette.updatedAt = .str t0 ∧
         (applyUpdate sunsetPalette { name := some (.str "X") } "t1").updatedAt
            = .str t1 ∧ t0 ≤ t1) ∧
     (∀ j, j ≠ 0 →
       ([sunsetPalette].set 0
           (applyUpdate sunsetPalette { name := some (.str "X") } "t1")).get? j
         = [sunsetPalette].get? j)) :=
  ⟨⟨rfl, rfl⟩,
   updatePalette_frame "id1" "X" "t1" [sunsetPalette] 0 sunsetPalette rfl rfl⟩

theorem strIncludes_toLower_iff (q s : String) :
    strIncludes (strToLower s) (strToLower q) = true ↔ OccursCI q s := by
  simp [strIncludes, OccursCI]

theorem isStrOpt_iff (o : Option Json) :
    isStrOpt o = true ↔ ∃ s, o = some (.str s) := by
  rcases o with _ | v
  · simp [isStrOpt]
  · rcases v with _ | b | n | s | es | fields <;> simp [isStrOpt]

theorem isStr_iff (v : Json) : v.isStr = true ↔ ∃ s, v = .str s := by
  rcases v with _ | b | n | s | es | fields <;> simp [Json.isStr]

theorem jsFieldToLower_of_str (c : Json) (k s : String)
    (h : c.get? k = some (.str s)) : jsFieldToLower c k = .ok (strToLower s) := by
  rcases c with _ | b | n | s2 | es | fields
  · simp [Json.get?] at h
  · simp [Json.get?] at h
  · simp [Json.get?] at h
  · simp [Json.get?] at h
  · simp [Json.get?] at h
  · simp [jsFieldToLower, Json.get?] at h ⊢
    rw [h]

/-- A well-formed color is matched exactly when the query occurs
case-insensitively in its name or hex. -/
theorem colorMatches_wf (q : String) (c : Json) (h : wfColor c = true) :
    ∃ b, colorMatches (strToLower q) c = .ok b ∧
      (b = true ↔ ((∃ s, c.get? "name" = some (.str s) ∧ OccursCI q s) ∨
                   (∃ hx, c.get? "hex" = some (.str hx) ∧ OccursCI q hx))) := by
  simp only [wfColor, Bool.and_eq_true] at h
  obtain ⟨s, hs⟩ := (isStrOpt_iff _).mp h.1
  obtain ⟨hx, hhx⟩ := (isStrOpt_iff _).mp h.2
  refine ⟨strIncludes (strToLower s) (strToLower q) || strIncludes (strToLower hx) (strToLower q), ?_, ?_⟩
  · simp only [colorMatches, jsFieldToLower_of_str c "name" s hs,
      jsFieldToLower_of_str c "hex" hx hhx]
    rcases hb : strIncludes (strToLower s) (strToLower q)
    · simp [hb]
    · simp [hb]
  · constructor
    · intro hb
      rcases Bool.or_eq_true _ _ |>.mp hb with h1 | h1
      · exact Or.inl ⟨s, hs, (strIncludes_toLower_iff q s).mp h1⟩
      · exact Or.inr ⟨hx, hhx, (strIncludes_toLower_iff q hx).mp h1⟩
    · intro hd
      rcases hd with ⟨s2, hs2, ho⟩ | ⟨h2, hh2, ho⟩
      · have he : s2 = s := by
          rw [hs] at hs2
          simpa using hs2.symm
        rw [he] at ho
        rw [(strIncludes_toLower_iff q s).mpr ho]
        simp
      · have he : h2 = hx := by
          rw [hhx] at hh2
          simpa using hh2.symm
        rw [he] at ho
        rw [(strIncludes_toLower_iff q hx).mpr ho]
        simp

/-- `Array.some` over a well-formed color list matches exactly when some
color matches. -/
theorem colorsSome_wf (q : String) (cs : List Json)
    (h : ∀ c ∈ cs, wfColor c = true) :
    ∃ b, colorsSome (strToLower q) cs = .ok b ∧
      (b = true ↔ ∃ c ∈ cs,
        (∃ s, c.get? "name" = some (.str s) ∧ OccursCI q s) ∨
        (∃ hx, c.get? "hex" = some (.str hx) ∧ OccursCI q hx)) := by
  induction cs with
  | nil => exact ⟨false, rfl, by simp⟩
  | cons c cs ih =>
    obtain ⟨b1, hb1, hiff1⟩ := colorMatches_wf q c (h c (by simp))
    obtain ⟨b2, hb2, hiff2⟩ := ih (fun c2 hc2 => h c2 (by simp [hc2]))
    refine ⟨b1 || b2, ?_, ?_⟩
    · simp only [colorsSome, hb1]
      rcases hb : b1
      · simp only [hb, Bool.false_or]
        exact hb2
      · simp [hb]
    · simp only [Bool.or_eq_true, List.mem_cons]
      constructor
      · intro hor
        rcases hor with h1 | h1
        · exact ⟨c, Or.inl rfl, hiff1.mp h1⟩
        · obtain ⟨c2, hc2, hd⟩ := hiff2.mp h1
          exact ⟨c2, Or.inr hc2, hd⟩
      · rintro ⟨c2, hc2, hd⟩
        rcases hc2 with rfl | hc2
        · exact Or.inl (hiff1.mpr hd)
        · exact Or.inr (hiff2.mpr ⟨c2, hc2, hd⟩)

/-- A well-formed palette is matched exactly under the claim's
membership condition. -/
theorem paletteMatches_wf (q : String) (p : SavedPalette)
    (h : wfPalette p = true) :
    ∃ b, paletteMatches (strToLower q) p = .ok b ∧ (b = true ↔ MatchesQuery q p) := by
  simp only [wfPalette, Bool.and_eq_true] at h
  obtain ⟨⟨⟨hn, hd⟩, ht⟩, hcm⟩ := h
  obtain ⟨n, hn2⟩ := (isStr_iff _).mp hn
  obtain ⟨d, hd2⟩ := (isStr_iff _).mp hd
  obtain ⟨t, ht2⟩ := (isStr_iff _).mp ht
  rcases hcol : p.colors with _ | cb | nn | s2 | cs | fields
  all_goals rw [hcol] at hcm
  case null => simp at hcm
  case bool => simp at hcm
  case num => simp at hcm
  case str => simp at hcm
  case obj => simp at hcm
  case arr =>
    have hall : ∀ c ∈ cs, wfColor c = true := by
      intro c hc
      exact List.all_eq_true.mp hcm c hc
    obtain ⟨bc, hbc, hbciff⟩ := colorsSome_wf q cs hall
    have hmq : MatchesQuery q p ↔ (OccursCI q n ∨ OccursCI q d ∨ OccursCI q t ∨
        ∃ c ∈ cs, (∃ s, c.get? "name" = some (.str s) ∧ OccursCI q s) ∨
          (∃ hx, c.get? "hex" = some (.str hx) ∧ OccursCI q hx)) := by
      simp [MatchesQuery, hn2, hd2, ht2, hcol]
    refine ⟨strIncludes (strToLower n) (strToLower q) || (strIncludes (strToLower d) (strToLower q)
      || (strIncludes (strToLower t) (strToLower q) || bc)), ?_, ?_⟩
    · simp only [paletteMatches, hn2, hd2, ht2, hcol, Json.jsToLower]
      rcases h1 : strIncludes (strToLower n) (strToLower q)
      · rcases h2 : strIncludes (strToLower d) (strToLower q)
        · rcases h3 : strIncludes (strToLower t) (strToLower q)
          · simp only [h1, h2, h3, Bool.false_or, if_false]
            simpa using hbc
          · simp [h1, h2, h3]
        · simp [h1, h2]
      · simp [h1]
    · rw [hmq]
      simp only [Bool.or_eq_true]
      rw [strIncludes_toLower_iff q n, strIncludes_toLower_iff q d,
        strIncludes_toLower_iff q t, hbciff]

/-- Search over a well-formed catalog never throws and keeps exactly the
matching palettes. -/
theorem filterE_matches_wf (q : String) (stored : List SavedPalette)
    (hwf : ∀ p ∈ stored, wfPalette p = true) :
    ∃ r, filterE (paletteMatches (strToLower q)) stored = .ok r ∧
      ∀ p, (p ∈ r ↔ p ∈ stored ∧ MatchesQuery q p) := by
  induction stored with
  | nil => exact ⟨[], rfl, by simp⟩
  | cons p ps ih =>
    obtain ⟨b, hb, hiff⟩ := paletteMatches_wf q p (hwf p (by simp))
    obtain ⟨r, hr, hmem⟩ := ih (fun p2 hp2 => hwf p2 (by simp [hp2]))
    rcases b with _ | _
    · have hnm : ¬ MatchesQuery q p := by
        intro hm
        simpa using hiff.mpr hm
      refine ⟨r, ?_, ?_⟩
      · simp [filterE, hb, hr]
      · intro p2
        rw [hmem p2, List.mem_cons]
        constructor
        · rintro ⟨h1, h2⟩
          exact ⟨Or.inr h1, h2⟩
        · rintro ⟨h1, h2⟩
          rcases h1 with rfl | h1
          · exact absurd h2 hnm
          · exact ⟨h1, h2⟩
    · have hm : MatchesQuery q p := hiff.mp rfl
      refine ⟨p :: r, ?_, ?_⟩
      · simp [filterE, hb, hr]
      · intro p2
        rw [List.mem_cons, List.mem_cons, hmem p2]
        constructor
        · rintro (rfl | ⟨h1, h2⟩)
          · exact ⟨Or.inl rfl, hm⟩
          · exact ⟨Or.inr h1, h2⟩
        · rintro ⟨h1, h2⟩
          rcases h1 with rfl | h1
          · exact Or.inl rfl
          · exact Or.inr ⟨h1, h2⟩

/-- Searching with the empty query keeps every well-formed palette. -/
theorem searchPalettes_empty (stored : List SavedPalette)
    (hwf : ∀ p ∈ stored, wfPalette p = true) :
    searchPalettes "" stored = .ok stored := by
  unfold searchPalettes
  induction stored with
  | nil => rfl
  | cons p ps ih =>
    have hn : p.name.isStr = true := by
      have := hwf p (by simp)
      simp only [wfPalette, Bool.and_eq_true] at this
      exact this.1.1.1
    obtain ⟨n, hn2⟩ := (isStr_iff _).mp hn
    have hpm : paletteMatches (strToLower "") p = .ok true := by
      have hinc : strIncludes (strToLower n) (strToLower "") = true := by
        rw [show (strToLower "") = "" from rfl]
        simp [strIncludes, List.nil_infix]
      simp [paletteMatches, hn2, Json.jsToLower, hinc]
    have ih2 := ih (fun p2 hp2 => hwf p2 (by simp [hp2]))
    simp [filterE, hpm, ih2]

/-- C6: for a catalog of well-formed palettes, `searchPalettes` succeeds
and includes a stored palette exactly when the query occurs
case-insensitively in its name, description, colorTheory, or some
color's name or hex; in particular any case-insensitive substring of a
palette's name finds it, and the empty query returns the full list. -/
theorem searchPalettes_membership (query : String) (stored : List SavedPalette)
    (hwf : ∀ p ∈ stored, wfPalette p = true) :
    (∃ r, searchPalettes query stored = .ok r ∧
      (∀ p ∈ stored, (p ∈ r ↔ MatchesQuery query p)) ∧
      (∀ p ∈ stored, ∀ n, p.name = .str n → OccursCI query n → p ∈ r)) ∧
    searchPalettes "" stored = .ok stored := by
  obtain ⟨r, hr, hmem⟩ := filterE_matches_wf query stored hwf
  refine ⟨⟨r, hr, ?_, ?_⟩, searchPalettes_empty stored hwf⟩
  · intro p hp
    rw [hmem p]
    exact ⟨fun h => h.2, fun h => ⟨hp, h⟩⟩
  · intro p hp n hn ho
    exact (hmem p).mpr ⟨hp, Or.inl ⟨n, hn, ho⟩⟩

/-- C6 witness: a concrete query over the sample catalog. -/
theorem searchPalettes_membership_witness :
    (∀ p ∈ [sunsetPalette], wfPalette p = true) ∧
    ((∃ r, searchPalettes "SUN" [sunsetPalette] = .ok r ∧
       (∀ p ∈ [sunsetPalette], (p ∈ r ↔ MatchesQuery "SUN" p)) ∧
       (∀ p ∈ [sunsetPalette], ∀ n, p.name = .str n → OccursCI "SUN" n → p ∈ r)) ∧
     searchPalettes "" [sunsetPalette] = .ok [sunsetPalette]) :=
  ⟨by decide, searchPalettes_membership "SUN" [sunsetPalette] (by decide)⟩

/-- C9 counterexample: `updateExistingPalette` on a missing id returns
`false` (an operation explicitly signaling failure) yet the error slot is
left unset — the hook only writes the slot inside its catch handler and
its success branch, so a `false` return leaves it untouched. -/
theorem vm_error_not_set_on_false :
    (updateExistingPalette "missing" { name := some (Json.str "X") } "T" false
        [sunsetPalette] { palettes := [sunsetPalette], error := none }).success
      = false ∧
    (updateExistingPalette "missing" { name := some (Json.str "X") } "T" false
        [sunsetPalette] { palettes := [sunsetPalette], error := none }).vm.error
      = none := by
  exact ⟨rfl, rfl⟩

/-- C9 (amended): the view-model's single last-error-message slot is
cleared on a successful update/delete/create and set on a raised failure
(`savePalette` rethrowing on a substrate write failure); an
`updatePalette` or `deletePalette` call returning `false` leaves the hook
state — the error slot included — unchanged. -/
theorem vm_error_slot (id : String) (updates : PaletteUpdate) (now : String)
    (wfail : Bool) (stored : List SavedPalette) (vm : VMState) :
    ((updateExistingPalette id updates now wfail stored vm).success = true →
      (updateExistingPalette id updates now wfail stored vm).vm.error = none) ∧
    ((updateExistingPalette id updates now wfail stored vm).success = false →
      (updateExistingPalette id updates now wfail stored vm).vm = vm) ∧
    ((removePalette id wfail stored vm).success = true →
      (removePalette id wfail stored vm).vm.error = none) ∧
    ((removePalette id wfail stored vm).success = false →
      (removePalette id wfail stored vm).vm = vm) ∧
    (∀ gen ctr draft,
      (saveNewPalette gen ctr now draft false stored vm).vm.error = none ∧
      (saveNewPalette gen ctr now draft true stored vm).vm.error
        = some "Failed to save palette") := by
  obtain ⟨⟨ub, ul⟩, hu⟩ := updatePalette_never_raises id updates now wfail stored
  obtain ⟨⟨db, dl⟩, hd⟩ := deletePalette_never_raises id wfail stored
  refine ⟨?_, ?_, ?_, ?_, ?_⟩
  · intro hs
    rcases ub with _ | _
    · simp [updateExistingPalette, hu] at hs
    · simp [updateExistingPalette, hu]
  · intro hs
    rcases ub with _ | _
    · simp [updateExistingPalette, hu]
    · simp [updateExistingPalette, hu] at hs
  · intro hs
    rcases db with _ | _
    · simp [removePalette, hd] at hs
    · simp [removePalette, hd]
  · intro hs
    rcases db with _ | _
    · simp [removePalette, hd]
    · simp [removePalette, hd] at hs
  · intro gen ctr draft
    constructor
    · have hres : (savePalette gen ctr now draft false stored).result
          = .ok (gen ctr) := rfl
      rcases hfind : getPaletteById (gen ctr)
          (savePalette gen ctr now draft false stored).stored with _ | p
      · simp [saveNewPalette, hres, hfind]
      · simp [saveNewPalette, hres, hfind]
    · have hres : (savePalette gen ctr now draft true stored).result
          = .error "Failed to save palette" := rfl
      simp [saveNewPalette, hres]

/-- C9 witness: the amended behavior at concrete inputs — a successful
update clears the slot, a not-found update leaves the state unchanged,
and a failed create sets the slot. -/
theorem vm_error_slot_witness :
    ((updateExistingPalette "id1" { name := some (Json.str "X") } "T" false
        [sunsetPalette] { palettes := [sunsetPalette], error := some "stale" }).vm.error
      = none) ∧
    ((updateExistingPalette "missing" { name := some (Json.str "X") } "T" false
        [sunsetPalette] { palettes := [sunsetPalette], error := some "stale" }).vm
      = { palettes := [sunsetPalette], error := some "stale" }) ∧
    ((saveNewPalette genW 0 "T" sunsetDraft true [sunsetPalette]
        { palettes := [sunsetPalette], error := none }).vm.error
      = some "Failed to save palette") :=
  ⟨(vm_error_slot "id1" { name := some (Json.str "X") } "T" false [sunsetPalette]
      { palettes := [sunsetPalette], error := some "stale" }).1 rfl,
   (vm_error_slot "missing" { name := some (Json.str "X") } "T" false [sunsetPalette]
      { palettes := [sunsetPalette], error := some "stale" }).2.1 rfl,
   ((vm_error_slot "missing" { name := some (Json.str "X") } "T" false [sunsetPalette]
      { palettes := [sunsetPalette], error := none }).2.2.2.2 genW 0 sunsetDraft).2⟩

end ColorForge
